import Mathlib

/-!
Shallow embedding of the GGA daemon's core logic:
the INA219 battery-gauge reads (`battery_gauge.c`), the arcade-bonnet
button reads and diffing (`arcade_buttons.c` / `main.c`), and the
battery integration tick of the main loop (`main.c`).

Machine `double` arithmetic is modelled over `ℚ`; transport operations
(i2c writes/reads) are modelled by explicit outcome parameters:
a `Bool` for "the calibration write succeeded" and an `Option` for the
subsequent read (with `none` modelling an ioctl failure, for which the
C helper `i2c_read_word` returns -1).
-/

set_option maxRecDepth 8000

namespace GGA

/-- Model of `i2c_read_word` (battery_gauge.c): returns -1 when the ioctl
fails, otherwise the byte-swapped 16-bit register word (a `uint16_t`,
hence the reduction mod 65536). -/
def i2c_read_word (r : Option ℕ) : ℤ :=
  match r with
  | none => -1
  | some w => ((w % 65536 : ℕ) : ℤ)

/-- The inline sign decode used by `get_shunt_voltage`, `get_current` and
`get_power`: the C line is `if (val > 32767) val -= 65535;`. -/
def signDecode (val : ℤ) : ℤ :=
  if val > 32767 then val - 65535 else val

/-- Arithmetic right shift on `int`, as gcc evaluates `val >> n`
(sign-propagating); used by `get_bus_voltage`. -/
def asr (v : ℤ) (n : ℕ) : ℤ :=
  match v with
  | .ofNat m => .ofNat (m >>> n)
  | .negSucc m => .negSucc (m >>> n)

/-- Model of `get_current` (battery_gauge.c lines 184-197): if the
calibration write fails the function returns the sentinel -255.0;
otherwise it decodes the REG_CURRENT word and scales by the chip's
`current_lsb`. -/
def get_current (writeOk : Bool) (r : Option ℕ) (current_lsb : ℚ) : ℚ :=
  if writeOk = false then -255
  else ((signDecode (i2c_read_word r) : ℤ) : ℚ) * current_lsb

/-- Model of `get_shunt_voltage` (battery_gauge.c lines 149-162): sentinel
-255.0 on a failed calibration write, else decoded word times 0.00001. -/
def get_shunt_voltage (writeOk : Bool) (r : Option ℕ) : ℚ :=
  if writeOk = false then -255
  else ((signDecode (i2c_read_word r) : ℤ) : ℚ) * (1 / 100000)

/-- Model of `get_bus_voltage` (battery_gauge.c lines 167-179): sentinel
-255.0 on a failed calibration write, else `(val >> 3) * 0.004`. -/
def get_bus_voltage (writeOk : Bool) (r : Option ℕ) : ℚ :=
  if writeOk = false then -255
  else ((asr (i2c_read_word r) 3 : ℤ) : ℚ) * (1 / 250)

/-- The body of `estimate_battery_percentage` (battery_gauge.c lines
220-228) as a function of the voltage value it obtained:
`batt = (V - battery_min_volts) / 3.6`, clamped to [0, 1]. -/
def battFromVolts (battery_min_volts busV : ℚ) : ℚ :=
  let batt := (busV - battery_min_volts) / (18 / 5)
  if batt > 1 then 1 else if batt < 0 then 0 else batt

/-- Model of `estimate_battery_percentage` (battery_gauge.c lines
220-228): calls `get_bus_voltage` and clamps the linear ratio. -/
def estimate_battery_percentage (battery_min_volts : ℚ) (writeOk : Bool)
    (r : Option ℕ) : ℚ :=
  battFromVolts battery_min_volts (get_bus_voltage writeOk r)

/-! ## Arcade buttons (arcade_buttons.c / main.c) -/

/-- A key event emitted through the uinput device: which logical button
(the `arcade_buttons` bitmask value) and the `pressed` flag passed to
`libevdev_uinput_write_event`. -/
structure ButtonEvent where
  button : ℕ
  pressed : Bool
deriving DecidableEq, Repr

def BUTTON_1A : ℕ := 0x0001
def BUTTON_1B : ℕ := 0x0002
def BUTTON_1C : ℕ := 0x0004
def BUTTON_1D : ℕ := 0x0008
def BUTTON_1E : ℕ := 0x0010
def BUTTON_1F : ℕ := 0x0020
def PAD_DOWN : ℕ := 0x0100
def PAD_UP : ℕ := 0x0200
def PAD_RIGHT : ℕ := 0x0400
def PAD_LEFT : ℕ := 0x0800
def STICK_RIGHT : ℕ := 0x1000
def STICK_LEFT : ℕ := 0x2000
def STICK_DOWN : ℕ := 0x4000
def STICK_UP : ℕ := 0x8000

/-- The 14 logical buttons, in the order `button_handler` checks them. -/
def arcadeButtons : List ℕ :=
  [BUTTON_1A, BUTTON_1B, BUTTON_1C, BUTTON_1D, BUTTON_1E, BUTTON_1F,
   PAD_DOWN, PAD_UP, PAD_RIGHT, PAD_LEFT,
   STICK_RIGHT, STICK_LEFT, STICK_DOWN, STICK_UP]

/-- Model of `check_press_button` (main.c lines 256-265): if the button's
bit is set in `changes`, emit one uinput event with
`pressed = ((current & button) == 0)`. -/
def check_press_button (button changes current : ℕ) : List ButtonEvent :=
  if changes &&& button ≠ 0 then
    [⟨button, decide (current &&& button = 0)⟩]
  else []

/-- Model of `button_handler` (main.c lines 266-285): diffs the two raw
masks with XOR and checks the 14 buttons in source order, concatenating
the emitted events. -/
def button_handler (last_state curr_state : ℕ) : List ButtonEvent :=
  let changes := last_state ^^^ curr_state
  check_press_button BUTTON_1A changes curr_state
    ++ check_press_button BUTTON_1B changes curr_state
    ++ check_press_button BUTTON_1C changes curr_state
    ++ check_press_button BUTTON_1D changes curr_state
    ++ check_press_button BUTTON_1E changes curr_state
    ++ check_press_button BUTTON_1F changes curr_state
    ++ check_press_button PAD_DOWN changes curr_state
    ++ check_press_button PAD_UP changes curr_state
    ++ check_press_button PAD_RIGHT changes curr_state
    ++ check_press_button PAD_LEFT changes curr_state
    ++ check_press_button STICK_RIGHT changes curr_state
    ++ check_press_button STICK_LEFT changes curr_state
    ++ check_press_button STICK_DOWN changes curr_state
    ++ check_press_button STICK_UP changes curr_state

/-- Model of `read_buttons_pressed` (arcade_buttons.c lines 410-431).
`state` is the stored mask `bonnet->state` before the call; `writeOk`
models the 1-byte register-select write, `r` the 4-byte read (with the
four `buf` bytes, each a `uint8_t`). Returns the C return value paired
with the mask stored in `bonnet->state` after the call. -/
def read_buttons_pressed (state : ℕ) (writeOk : Bool)
    (r : Option (ℕ × ℕ × ℕ × ℕ)) : ℤ × ℕ :=
  if writeOk = false then (-1, state)
  else
    match r with
    | none => (-1, state)
    | some (_, _, b2, b3) =>
      let val := (b2 % 256) ||| ((b3 % 256) <<< 8)
      (if val ≠ state then 1 else 0, val)

/-! ## The battery tick of the main loop (main.c lines 423-442)

The current-history array `battery_current_history` (128 `double`s) is
modelled as a function `ℕ → ℚ`; only indices 0..127 are ever touched,
matching the C array. The shift loop

```
battery_current_history[0] = current;
for (int i = BATTERY_SAMPLE_BUFFER - 1; i > 0; i--)
{
    battery_current_history[i] = battery_current_history[i - 1];
    if (battery_current_history[i] > 0) { charging = 1; }
}
```

is embedded as a downward recursion over the loop index. -/

/-- One iteration block of the shift loop: called with loop index `i`,
writes `h[i] = h[i-1]`, ors the charging flag with `h[i] > 0` (the value
just written), and continues with `i - 1`, stopping at `i = 0`. -/
def histShift (h : ℕ → ℚ) (charging : Bool) : ℕ → (ℕ → ℚ) × Bool
  | 0 => (h, charging)
  | i + 1 =>
    let h2 := Function.update h (i + 1) (h i)
    histShift h2 (charging || decide (h2 (i + 1) > 0)) i

/-- The full per-tick history update: `history[0] = current` followed by
the shift loop from index 127 with the charging flag starting at 0. -/
def histPush (h : ℕ → ℚ) (current : ℚ) : (ℕ → ℚ) × Bool :=
  histShift (Function.update h 0 current) false 127

/-- One battery tick of the main loop: the new capacity
`last_capacity + current * ((double)ms_passed / 3.6e6)` together with the
updated history and the charging flag. -/
def batteryTickStep (last_capacity : ℚ) (h : ℕ → ℚ) (current : ℚ)
    (ms_passed : ℕ) : ℚ × (ℕ → ℚ) × Bool :=
  (last_capacity + current * ((ms_passed : ℚ) / 3600000), histPush h current)

/-- Iterated ticks: the history after `k` consecutive pushes of the same
sample `c`. -/
def pushN (h : ℕ → ℚ) (c : ℚ) (k : ℕ) : ℕ → ℚ :=
  (fun g => (histPush g c).1)^[k] h

/-! ## Shutdown condition (main.c `battery_handler`, lines 248-252) -/

/-- The guard of the power-off branch in `battery_handler`:
`percentage <= BATTERY_SHUTDOWN_LIMIT && !charging` with
`BATTERY_SHUTDOWN_LIMIT = 0.1`. -/
def battery_handler_poweroff (percentage : ℚ) (charging : Bool) : Bool :=
  decide (percentage ≤ 1 / 10) && !charging

/-- The main loop's battery updates, abstracted to the sequence of
`(percentage, charging)` pairs passed to `battery_handler`; counts
power-off invocations, with `reboot(LINUX_REBOOT_CMD_POWER_OFF)`
modelled as halting execution (no later tick runs). -/
def mainLoopPoweroffCount : List (ℚ × Bool) → ℕ
  | [] => 0
  | x :: rest =>
    if battery_handler_poweroff x.1 x.2 = true then 1
    else mainLoopPoweroffCount rest

/-! ## Closed form of the shift loop -/

/-- The capacity component of a tick. -/
theorem batteryTickStep_fst (cap : ℚ) (h : ℕ → ℚ) (c : ℚ) (ms : ℕ) :
    (batteryTickStep cap h c ms).1 = cap + c * ((ms : ℚ) / 3600000) := rfl

/-- The history/charging component of a tick. -/
theorem batteryTickStep_snd (cap : ℚ) (h : ℕ → ℚ) (c : ℚ) (ms : ℕ) :
    (batteryTickStep cap h c ms).2 = histPush h c := rfl

/-- Pointwise description of the array after the shift loop has run from
index `i` down to 1: slots 1..i received the old slot one below, the
rest are untouched. -/
theorem histShift_apply (i : ℕ) :
    ∀ (h : ℕ → ℚ) (ch : Bool) (j : ℕ),
      (histShift h ch i).1 j = if 1 ≤ j ∧ j ≤ i then h (j - 1) else h j := by
  induction i with
  | zero =>
    intro h ch j
    have hno : ¬(1 ≤ j ∧ j ≤ 0) := by omega
    rw [if_neg hno]
    rfl
  | succ i ih =>
    intro h ch j
    simp only [histShift]
    rw [ih]
    by_cases hj1 : 1 ≤ j ∧ j ≤ i
    · rw [if_pos hj1, if_pos (by omega)]
      exact Function.update_noteq (by omega) _ _
    · rw [if_neg hj1]
      by_cases hj2 : j = i + 1
      · subst hj2
        rw [if_pos (by omega)]
        rw [Function.update_same]
        simp
      · rw [if_neg (by omega)]
        exact Function.update_noteq hj2 _ _

/-- The charging flag accumulated by the shift loop from index `i`:
it ors the initial flag with the positivity of the old slots 0..i-1. -/
theorem histShift_bool (i : ℕ) :
    ∀ (h : ℕ → ℚ) (ch : Bool),
      (histShift h ch i).2 = true ↔ ch = true ∨ ∃ j, j < i ∧ 0 < h j := by
  induction i with
  | zero =>
    intro h ch
    simp [histShift]
  | succ i ih =>
    intro h ch
    simp only [histShift]
    rw [ih]
    have hup : ∀ j, j < i → Function.update h (i + 1) (h i) j = h j := by
      intro j hj
      exact Function.update_noteq (by omega) _ _
    rw [Function.update_same]
    simp only [Bool.or_eq_true, decide_eq_true_eq]
    constructor
    · rintro ((hc | hpos) | ⟨j, hj, hpos⟩)
      · exact Or.inl hc
      · exact Or.inr ⟨i, by omega, hpos⟩
      · rw [hup j hj] at hpos
        exact Or.inr ⟨j, by omega, hpos⟩
    · rintro (hc | ⟨j, hj, hpos⟩)
      · exact Or.inl (Or.inl hc)
      · by_cases hji : j = i
        · subst hji
          exact Or.inl (Or.inr hpos)
        · refine Or.inr ⟨j, by omega, ?_⟩
          rw [hup j (by omega)]
          exact hpos

/-- After a push, slot 0 holds the new sample. -/
theorem histPush_apply_zero (h : ℕ → ℚ) (c : ℚ) : (histPush h c).1 0 = c := by
  rw [histPush, histShift_apply]
  rw [if_neg (by omega)]
  exact Function.update_same _ _ _

/-- After a push, slot 1 also holds the new sample: the loop copies
`history[0]` (already overwritten with the new sample) into slot 1. -/
theorem histPush_apply_one (h : ℕ → ℚ) (c : ℚ) : (histPush h c).1 1 = c := by
  rw [histPush, histShift_apply]
  rw [if_pos (by omega)]
  exact Function.update_same _ _ _

/-- After a push, slots 2..127 hold the old slot one below. -/
theorem histPush_apply_mid (h : ℕ → ℚ) (c : ℚ) (j : ℕ)
    (h2 : 2 ≤ j) (h127 : j ≤ 127) : (histPush h c).1 j = h (j - 1) := by
  rw [histPush, histShift_apply]
  rw [if_pos (by omega)]
  exact Function.update_noteq (by omega) _ _

/-- Slots past the array are untouched by a push. -/
theorem histPush_apply_high (h : ℕ → ℚ) (c : ℚ) (j : ℕ)
    (hj : 128 ≤ j) : (histPush h c).1 j = h j := by
  rw [histPush, histShift_apply]
  rw [if_neg (by omega)]
  exact Function.update_noteq (by omega) _ _

/-- The charging flag of a push: the new sample or one of the old slots
1..126 is strictly positive (old slot 0 is overwritten before it is
examined, old slot 127 is shifted out). -/
theorem histPush_bool (h : ℕ → ℚ) (c : ℚ) :
    (histPush h c).2 = true ↔ 0 < c ∨ ∃ j, 1 ≤ j ∧ j < 127 ∧ 0 < h j := by
  rw [histPush, histShift_bool]
  constructor
  · rintro (hc | ⟨j, hj, hpos⟩)
    · exact absurd hc (by simp)
    · rcases Nat.eq_zero_or_pos j with h0 | h1
      · subst h0
        rw [Function.update_same] at hpos
        exact Or.inl hpos
      · rw [Function.update_noteq (by omega)] at hpos
        exact Or.inr ⟨j, h1, hj, hpos⟩
  · rintro (hc | ⟨j, h1, hj, hpos⟩)
    · refine Or.inr ⟨0, by omega, ?_⟩
      rw [Function.update_same]
      exact hc
    · refine Or.inr ⟨j, hj, ?_⟩
      rw [Function.update_noteq (by omega)]
      exact hpos

/-- After `k ≥ 1` consecutive pushes of the same sample `c`, slots
`0..min k 127` all hold `c`. -/
theorem pushN_const (c : ℚ) (h : ℕ → ℚ) :
    ∀ k, 1 ≤ k → ∀ j, j ≤ k → j ≤ 127 → pushN h c k j = c := by
  intro k
  induction k with
  | zero => omega
  | succ k ih =>
    intro _ j hjk hj127
    have hstep : pushN h c (k + 1) = (histPush (pushN h c k) c).1 :=
      Function.iterate_succ_apply' _ _ _
    rw [hstep]
    rcases j with _ | _ | j
    · exact histPush_apply_zero _ _
    · exact histPush_apply_one _ _
    · rw [histPush_apply_mid _ _ (j + 2) (by omega) (by omega)]
      exact ih (by omega) (j + 1) (by omega) (by omega)

/-! ## Claims C3, C7, C8, C9, C10 -/

/-- Claim C3 (counterexample): one integration step with
`current_mA = 100`, `elapsed_ms = 3600` from a capacity of 1000 mAh
yields 1000.1 mAh, not the 1100 mAh stated by the claim
(3600 ms is 3.6 s, not one hour). -/
theorem coulomb_example_not_1100 :
    (batteryTickStep 1000 (fun _ => 0) 100 3600).1 = 1000 + 1 / 10 ∧
    (1000 + 1 / 10 : ℚ) ≠ 1100 := by
  constructor
  · show (1000 : ℚ) + 100 * (((3600 : ℕ) : ℚ) / 3600000) = 1000 + 1 / 10
    norm_num
  · norm_num

/-- Claim C3 (amended): one integration step adds exactly
`current_mA * elapsed_ms / 3600000` to the capacity; in particular from
1000 mAh with `current_mA = 100` and `elapsed_ms = 3600` it yields
exactly 1000.1 mAh. -/
theorem coulomb_step (cap c : ℚ) (h : ℕ → ℚ) (ms : ℕ) :
    (batteryTickStep cap h c ms).1 = cap + c * ((ms : ℚ) / 3600000) ∧
    (batteryTickStep 1000 h 100 3600).1 = 1000 + 1 / 10 := by
  constructor
  · rfl
  · show (1000 : ℚ) + 100 * (((3600 : ℕ) : ℚ) / 3600000) = 1000 + 1 / 10
    norm_num

/-- The model of `val >> 3` on the value -1 that `i2c_read_word` returns
after a failed ioctl: an arithmetic shift keeps -1. -/
theorem asr_neg_one (n : ℕ) : asr (-1) n = -1 := by
  show asr (Int.negSucc 0) n = -1
  simp [asr]

/-- A failed calibration write makes `get_bus_voltage` return -255. -/
theorem get_bus_voltage_write_fail (r : Option ℕ) :
    get_bus_voltage false r = -255 := rfl

/-- A failed register read makes `get_bus_voltage` return
`(-1 >> 3) * 0.004 = -0.004`, a plausible-looking voltage. -/
theorem get_bus_voltage_read_fail : get_bus_voltage true none = -1 / 250 := by
  show ((asr (i2c_read_word none) 3 : ℤ) : ℚ) * (1 / 250) = -1 / 250
  rw [show i2c_read_word none = -1 from rfl, asr_neg_one]
  norm_num

/-- A genuine raw word 18000 decodes to a bus voltage of exactly 9 V. -/
theorem get_bus_voltage_18000 : get_bus_voltage true (some 18000) = 9 := by
  have h1 : i2c_read_word (some 18000) = Int.ofNat 18000 := by
    simp [i2c_read_word]
  have h2 : asr (Int.ofNat 18000) 3 = Int.ofNat 2250 := by
    simp [asr]
  show ((asr (i2c_read_word (some 18000)) 3 : ℤ) : ℚ) * (1 / 250) = 9
  rw [h1, h2]
  norm_num

/-- Claim C7 (counterexample): when the initial bus-voltage read fails,
seeding does not fail; `estimate_battery_percentage` clamps the -255.0
sentinel to the valid percentage 0, exactly the value a genuine reading
of 9.0 V (the configured minimum voltage) produces, so the failure is
silently converted and indistinguishable from a real 0 % reading. -/
theorem seed_sentinel_counterexample :
    estimate_battery_percentage 9 false none = 0 ∧
    estimate_battery_percentage 9 true (some 18000) = 0 ∧
    (0 : ℚ) ≤ estimate_battery_percentage 9 false none ∧
    estimate_battery_percentage 9 false none ≤ 1 := by
  have hf : estimate_battery_percentage 9 false none = 0 := by
    show battFromVolts 9 (get_bus_voltage false none) = 0
    rw [get_bus_voltage_write_fail]
    norm_num [battFromVolts]
  have hg : estimate_battery_percentage 9 true (some 18000) = 0 := by
    show battFromVolts 9 (get_bus_voltage true (some 18000)) = 0
    rw [get_bus_voltage_18000]
    norm_num [battFromVolts]
  exact ⟨hf, hg, by rw [hf], by rw [hf]; norm_num⟩

/-- Claim C7 (amended): seeding never fails. A failed calibration write
makes `get_bus_voltage` return the sentinel -255.0 and a failed register
read makes it return -0.004; in both cases `estimate_battery_percentage`
clamps the negative ratio and returns the valid initial percentage 0, so
the error is silently absorbed rather than propagated. -/
theorem seed_sentinel_clamped (r : Option ℕ) :
    get_bus_voltage false r = -255 ∧
    estimate_battery_percentage 9 false r = 0 ∧
    get_bus_voltage true none = -1 / 250 ∧
    estimate_battery_percentage 9 true none = 0 := by
  refine ⟨rfl, ?_, get_bus_voltage_read_fail, ?_⟩
  · show battFromVolts 9 (get_bus_voltage false r) = 0
    rw [get_bus_voltage_write_fail]
    norm_num [battFromVolts]
  · show battFromVolts 9 (get_bus_voltage true none) = 0
    rw [get_bus_voltage_read_fail]
    norm_num [battFromVolts]

/-- Claim C8 (confirmed): for `min_voltage ≤ V1 ≤ V2 ≤ min_voltage + 3.6`
the seeded percentage (the clamped linear ratio computed by
`estimate_battery_percentage`) lies in [0, 1] and is monotone
non-decreasing in the bus voltage. -/
theorem seed_percentage_bounds_mono (minV V1 V2 : ℚ)
    (h1 : minV ≤ V1) (h12 : V1 ≤ V2) (h2 : V2 ≤ minV + 18 / 5) :
    0 ≤ battFromVolts minV V1 ∧ battFromVolts minV V1 ≤ 1 ∧
    0 ≤ battFromVolts minV V2 ∧ battFromVolts minV V2 ≤ 1 ∧
    battFromVolts minV V1 ≤ battFromVolts minV V2 := by
  have hd : (V1 - minV) / (18 / 5) ≤ (V2 - minV) / (18 / 5) :=
    (div_le_div_iff_of_pos_right (by norm_num)).mpr (by linarith)
  refine ⟨?_, ?_, ?_, ?_, ?_⟩ <;>
    · simp only [battFromVolts]
      split_ifs <;> linarith

/-- Witness for C8 at the concrete voltages 10 V and 11 V over a 9 V
minimum. -/
theorem seed_percentage_bounds_mono_witness :
    (9 : ℚ) ≤ 10 ∧ (10 : ℚ) ≤ 11 ∧ (11 : ℚ) ≤ 9 + 18 / 5 ∧
    (0 ≤ battFromVolts 9 10 ∧ battFromVolts 9 10 ≤ 1 ∧
      0 ≤ battFromVolts 9 11 ∧ battFromVolts 9 11 ≤ 1 ∧
      battFromVolts 9 10 ≤ battFromVolts 9 11) :=
  ⟨by norm_num, by norm_num, by norm_num,
    seed_percentage_bounds_mono 9 10 11 (by norm_num) (by norm_num)
      (by norm_num)⟩

/-- Claim C9 (confirmed): if either the register-select write or the
4-byte read fails, `read_buttons_pressed` returns -1 and the stored mask
`bonnet->state` is exactly what it was before the call. -/
theorem read_buttons_failure_keeps_state (state : ℕ) (writeOk : Bool)
    (r : Option (ℕ × ℕ × ℕ × ℕ)) (hfail : writeOk = false ∨ r = none) :
    read_buttons_pressed state writeOk r = (-1, state) := by
  rcases hfail with hw | hr
  · subst hw
    rfl
  · subst hr
    cases writeOk <;> rfl

/-- Witness for C9 at a concrete failing input. -/
theorem read_buttons_failure_keeps_state_witness :
    (false = false ∨ (none : Option (ℕ × ℕ × ℕ × ℕ)) = none) ∧
    read_buttons_pressed 5 false none = (-1, 5) :=
  ⟨Or.inl rfl, read_buttons_failure_keeps_state 5 false none (Or.inl rfl)⟩

/-- Claim C10 (confirmed): for a raw word `32768 ≤ v ≤ 65535` the decode
`if (val > 32767) val -= 65535;` makes `get_current` return
`(v - 65535) * current_lsb` and `get_shunt_voltage` return
`(v - 65535) * 0.00001`; in particular the raw word 0xFFFF maps to
exactly 0. -/
theorem raw_word_decode_one_above (v : ℕ) (current_lsb : ℚ)
    (hlow : 32768 ≤ v) (hhigh : v ≤ 65535) :
    get_current true (some v) current_lsb = ((v : ℚ) - 65535) * current_lsb ∧
    get_shunt_voltage true (some v) = ((v : ℚ) - 65535) * (1 / 100000) ∧
    get_current true (some 65535) current_lsb = 0 ∧
    get_shunt_voltage true (some 65535) = 0 := by
  have hv : v % 65536 = v := Nat.mod_eq_of_lt (by omega)
  have h1 : i2c_read_word (some v) = (v : ℤ) := by
    simp [i2c_read_word, hv]
  have hdec : signDecode (i2c_read_word (some v)) = (v : ℤ) - 65535 := by
    unfold signDecode
    rw [h1, if_pos (by omega)]
  refine ⟨?_, ?_, ?_, ?_⟩
  · show ((signDecode (i2c_read_word (some v)) : ℤ) : ℚ) * current_lsb = _
    rw [hdec]
    push_cast
    ring
  · show ((signDecode (i2c_read_word (some v)) : ℤ) : ℚ) * (1 / 100000) = _
    rw [hdec]
    push_cast
    ring
  · have h1 : signDecode (i2c_read_word (some 65535)) = 0 := by
      simp [i2c_read_word, signDecode]
    show ((signDecode (i2c_read_word (some 65535)) : ℤ) : ℚ) * current_lsb = 0
    rw [h1]
    norm_num
  · have h1 : signDecode (i2c_read_word (some 65535)) = 0 := by
      simp [i2c_read_word, signDecode]
    show ((signDecode (i2c_read_word (some 65535)) : ℤ) : ℚ) * (1 / 100000) = 0
    rw [h1]
    norm_num

/-- Witness for C10 at the concrete raw word 40000 with the 16 V / 5 A
current LSB 0.1524. -/
theorem raw_word_decode_one_above_witness :
    32768 ≤ 40000 ∧ (40000 : ℕ) ≤ 65535 ∧
    get_current true (some 40000) (1524 / 10000)
      = ((40000 : ℚ) - 65535) * (1524 / 10000) :=
  ⟨by decide, by decide,
    (raw_word_decode_one_above 40000 (1524 / 10000) (by decide) (by decide)).1⟩

/-! ## Claims C1, C4, C5, C6 -/

/-- Claim C1 (counterexample): a failed calibration write during a
battery tick does not leave the state unchanged: from capacity 1000 mAh,
a zeroed history and a 200 ms tick, the sentinel -255.0 returned by
`get_current` is integrated (the capacity changes) and is pushed into
`current_history[0]` — and a value is produced rather than an error. -/
theorem sentinel_tick_counterexample :
    (batteryTickStep 1000 (fun _ => 0)
        (get_current false none (1524 / 10000)) 200).1 ≠ 1000 ∧
    (batteryTickStep 1000 (fun _ => 0)
        (get_current false none (1524 / 10000)) 200).2.1 0 ≠ 0 := by
  have hgc : get_current false none (1524 / 10000) = -255 := by
    simp [get_current]
  rw [hgc]
  constructor
  · rw [batteryTickStep_fst]
    norm_num
  · rw [batteryTickStep_snd, histPush_apply_zero]
    norm_num

/-- Claim C1 (amended): when the calibration write fails during a
battery tick, `get_current` returns the sentinel -255.0 and the tick is
not skipped: the sentinel is integrated into the capacity — which
changes whenever a positive amount of time elapsed — and is pushed into
`current_history[0]`; no error is signalled to the loop. -/
theorem sentinel_integrated (r : Option ℕ) (current_lsb cap : ℚ)
    (h : ℕ → ℚ) (ms : ℕ) (hms : 0 < ms) :
    get_current false r current_lsb = -255 ∧
    (batteryTickStep cap h (get_current false r current_lsb) ms).1
      = cap - 255 * ((ms : ℚ) / 3600000) ∧
    (batteryTickStep cap h (get_current false r current_lsb) ms).1 ≠ cap ∧
    (batteryTickStep cap h (get_current false r current_lsb) ms).2.1 0 = -255 := by
  have hgc : get_current false r current_lsb = -255 := by
    simp [get_current]
  rw [hgc]
  have hmsq : (0 : ℚ) < (ms : ℚ) := by exact_mod_cast hms
  have hpos : (0 : ℚ) < (ms : ℚ) / 3600000 := by positivity
  refine ⟨rfl, ?_, ?_, ?_⟩
  · show cap + (-255) * ((ms : ℚ) / 3600000) = cap - 255 * ((ms : ℚ) / 3600000)
    ring
  · show cap + (-255) * ((ms : ℚ) / 3600000) ≠ cap
    intro hEq
    linarith
  · show (histPush h (-255)).1 0 = -255
    exact histPush_apply_zero _ _

/-- Witness for the amended C1 at a concrete failed tick. -/
theorem sentinel_integrated_witness :
    0 < 200 ∧
    (batteryTickStep 1000 (fun _ => 0)
        (get_current false none (1524 / 10000)) 200).2.1 0 = -255 :=
  ⟨by decide,
    (sentinel_integrated none (1524 / 10000) 1000 (fun _ => 0) 200
      (by decide)).2.2.2⟩

/-- Claim C4 (code bug): from the window holding sample `j` at slot `j`
(so slot 0 holds the most recent prior sample, value 0) and a new sample
200, the shift loop stores the new sample in both slot 0 and slot 1: the
new sample is duplicated and the most recent prior sample (value 0) is
dropped from the window entirely, contradicting FIFO eviction of only
the oldest entry. -/
theorem history_shift_duplicates_sample :
    (histPush (fun j => (j : ℚ)) 200).1 0 = 200 ∧
    (histPush (fun j => (j : ℚ)) 200).1 1 = 200 ∧
    (histPush (fun j => (j : ℚ)) 200).1 2 = 1 ∧
    ∀ j, (histPush (fun j => (j : ℚ)) 200).1 j ≠ 0 := by
  refine ⟨histPush_apply_zero _ _, histPush_apply_one _ _, ?_, ?_⟩
  · rw [histPush_apply_mid _ _ 2 (by omega) (by omega)]
    norm_num
  · intro j
    rcases j with _ | _ | j
    · rw [histPush_apply_zero]
      norm_num
    · rw [histPush_apply_one]
      norm_num
    · rcases Nat.lt_or_ge (j + 2) 128 with h128 | h128
      · rw [histPush_apply_mid _ _ (j + 2) (by omega) (by omega)]
        intro hc
        rw [Nat.cast_eq_zero] at hc
        omega
      · rw [histPush_apply_high _ _ (j + 2) (by omega)]
        intro hc
        rw [Nat.cast_eq_zero] at hc
        omega

/-- The charging flag of a push equals "some slot 0..127 of the
resulting window is strictly positive": the loop scans slots 1..127
after the shift, and slot 0 duplicates slot 1. -/
theorem histPush_charging_iff (h : ℕ → ℚ) (c : ℚ) :
    (histPush h c).2 = true ↔ ∃ j, j < 128 ∧ 0 < (histPush h c).1 j := by
  rw [histPush_bool]
  constructor
  · rintro (hc | ⟨j, h1, hj, hpos⟩)
    · refine ⟨0, by omega, ?_⟩
      rw [histPush_apply_zero]
      exact hc
    · refine ⟨j + 1, by omega, ?_⟩
      rw [histPush_apply_mid _ _ (j + 1) (by omega) (by omega)]
      simpa using hpos
  · rintro ⟨j, hj, hpos⟩
    rcases j with _ | _ | j
    · rw [histPush_apply_zero] at hpos
      exact Or.inl hpos
    · rw [histPush_apply_one] at hpos
      exact Or.inl hpos
    · rw [histPush_apply_mid _ _ (j + 2) (by omega) (by omega)] at hpos
      exact Or.inr ⟨j + 1, by omega, by omega, by simpa using hpos⟩

/-- Claim C5 (confirmed): after every battery tick the charging flag is
true iff some sample held in the 128-slot window is strictly positive;
in particular the flag is true on the 128th consecutive push of +5.0
starting from a zeroed window, and false on the 128th consecutive push
of -5.0 after that. -/
theorem charging_flag_iff_positive_sample :
    (∀ cap h c ms, (batteryTickStep cap h c ms).2.2 = true ↔
      ∃ j, j < 128 ∧ 0 < (batteryTickStep cap h c ms).2.1 j) ∧
    (histPush (pushN (fun _ => 0) 5 127) 5).2 = true ∧
    (histPush (pushN (pushN (fun _ => 0) 5 128) (-5) 127) (-5)).2 = false := by
  refine ⟨fun cap h c ms => histPush_charging_iff h c, ?_, ?_⟩
  · rw [histPush_bool]
    exact Or.inl (by norm_num)
  · rw [Bool.eq_false_iff]
    intro hcontra
    rw [histPush_bool] at hcontra
    rcases hcontra with hc | ⟨j, h1, hj, hpos⟩
    · norm_num at hc
    · rw [pushN_const (-5) _ 127 (by omega) j (by omega) (by omega)] at hpos
      norm_num at hpos

/-- Every list of battery updates triggers the power-off at most once,
power-off halting the process being built into the loop model. -/
theorem mainLoop_le_one : ∀ obs, mainLoopPoweroffCount obs ≤ 1 := by
  intro obs
  induction obs with
  | nil => simp [mainLoopPoweroffCount]
  | cons x rest ih =>
    simp only [mainLoopPoweroffCount]
    split_ifs
    · omega
    · exact ih

/-- If no update before `t` triggers the guard and `t` does, the
power-off action is invoked exactly once over the whole run. -/
theorem mainLoop_first_trigger :
    ∀ pre (t : ℚ × Bool) post,
      (∀ x ∈ pre, battery_handler_poweroff x.1 x.2 = false) →
      battery_handler_poweroff t.1 t.2 = true →
      mainLoopPoweroffCount (pre ++ t :: post) = 1 := by
  intro pre
  induction pre with
  | nil =>
    intro t post _ ht
    simp only [List.nil_append, mainLoopPoweroffCount]
    rw [if_pos ht]
  | cons x rest ih =>
    intro t post hpre ht
    have hx : battery_handler_poweroff x.1 x.2 = false :=
      hpre x (List.mem_cons_self _ _)
    simp only [List.cons_append, mainLoopPoweroffCount]
    rw [if_neg (by simp [hx])]
    exact ih t post (fun y hy => hpre y (List.mem_cons_of_mem _ hy)) ht

/-- Claim C6 (confirmed): the power-off branch of `battery_handler`
fires exactly once on the first update with percentage at most 0.10 and
charging false — `reboot(LINUX_REBOOT_CMD_POWER_OFF)` is modelled as
halting the loop — and never fires while charging is true; in particular
percentage 0.09 with charging false triggers it and percentage 0.09 with
charging true does not. -/
theorem poweroff_exactly_once (obs pre post : List (ℚ × Bool))
    (t : ℚ × Bool)
    (hpre : ∀ x ∈ pre, battery_handler_poweroff x.1 x.2 = false)
    (ht : battery_handler_poweroff t.1 t.2 = true) :
    (∀ p ch, battery_handler_poweroff p ch = true → ch = false) ∧
    mainLoopPoweroffCount obs ≤ 1 ∧
    mainLoopPoweroffCount (pre ++ t :: post) = 1 ∧
    battery_handler_poweroff (9 / 100) false = true ∧
    battery_handler_poweroff (9 / 100) true = false := by
  refine ⟨?_, mainLoop_le_one obs, mainLoop_first_trigger pre t post hpre ht,
    ?_, ?_⟩
  · intro p ch hp
    simp only [battery_handler_poweroff, Bool.and_eq_true] at hp
    rcases hp with ⟨-, h2⟩
    simpa using h2
  · simp only [battery_handler_poweroff, Bool.not_false, Bool.and_true,
      decide_eq_true_eq]
    norm_num
  · simp [battery_handler_poweroff]

/-- Witness for C6: a one-tick run at percentage 0.09, not charging,
invokes the power-off exactly once. -/
theorem poweroff_exactly_once_witness :
    battery_handler_poweroff ((9 : ℚ) / 100) false = true ∧
    mainLoopPoweroffCount [((9 : ℚ) / 100, false)] = 1 := by
  have hguard : battery_handler_poweroff ((9 : ℚ) / 100) false = true := by
    simp only [battery_handler_poweroff, Bool.not_false, Bool.and_true,
      decide_eq_true_eq]
    norm_num
  exact ⟨hguard,
    (poweroff_exactly_once [] [] [] ((9 : ℚ) / 100, false)
      (by simp) hguard).2.2.1⟩

/-! ## Claim C2 -/

/-- Events contributed by a single `check_press_button` call, counted. -/
theorem countP_check (p : ButtonEvent → Bool) (b changes curr : ℕ) :
    List.countP p (check_press_button b changes curr) =
      if changes &&& b ≠ 0 then
        (if p ⟨b, decide (curr &&& b = 0)⟩ = true then 1 else 0)
      else 0 := by
  unfold check_press_button
  by_cases h1 : changes &&& b ≠ 0
  · rw [if_pos h1, if_pos h1]
    by_cases h2 : p ⟨b, decide (curr &&& b = 0)⟩ = true
    · rw [if_pos h2]
      simp [List.countP_cons, h2]
    · rw [if_neg h2]
      simp only [Bool.not_eq_true] at h2
      simp [List.countP_cons, h2]
  · rw [if_neg h1, if_neg h1]
    simp

/-- Any event emitted by `check_press_button` is the event for that
button with `pressed = ((current & button) == 0)`. -/
theorem mem_check_press (e : ButtonEvent) (b changes curr : ℕ)
    (he : e ∈ check_press_button b changes curr) :
    e = ⟨b, decide (curr &&& b = 0)⟩ := by
  unfold check_press_button at he
  by_cases h1 : changes &&& b ≠ 0
  · rw [if_pos h1] at he
    simpa using he
  · rw [if_neg h1] at he
    simp at he

/-- Per-button event count of a diff: one event iff the button's bit
differs between the two masks, zero otherwise. -/
theorem button_events_per_button (last curr b : ℕ) (hb : b ∈ arcadeButtons) :
    List.countP (fun e => e.button == b) (button_handler last curr)
      = if (last ^^^ curr) &&& b ≠ 0 then 1 else 0 := by
  simp only [arcadeButtons, BUTTON_1A, BUTTON_1B, BUTTON_1C, BUTTON_1D,
    BUTTON_1E, BUTTON_1F, PAD_DOWN, PAD_UP, PAD_RIGHT, PAD_LEFT, STICK_RIGHT,
    STICK_LEFT, STICK_DOWN, STICK_UP, List.mem_cons, List.not_mem_nil,
    or_false] at hb
  rcases hb with rfl | rfl | rfl | rfl | rfl | rfl | rfl | rfl | rfl | rfl |
    rfl | rfl | rfl | rfl <;>
  · simp [button_handler, List.countP_append, countP_check, BUTTON_1A,
      BUTTON_1B, BUTTON_1C, BUTTON_1D, BUTTON_1E, BUTTON_1F, PAD_DOWN, PAD_UP,
      PAD_RIGHT, PAD_LEFT, STICK_RIGHT, STICK_LEFT, STICK_DOWN, STICK_UP]

/-- Every event emitted by a diff concerns one of the 14 buttons and has
`pressed = true` exactly when the button's bit is cleared in the new raw
mask (active-low hardware polarity). -/
theorem button_events_pressed (last curr : ℕ) :
    ∀ e ∈ button_handler last curr,
      (e.pressed = true ↔ curr &&& e.button = 0) ∧ e.button ∈ arcadeButtons := by
  intro e he
  simp only [button_handler, List.mem_append, or_assoc] at he
  rcases he with he | he | he | he | he | he | he | he | he | he | he | he |
    he | he <;>
  · rw [mem_check_press e _ _ _ he]
    exact ⟨by simp, by simp [arcadeButtons]⟩

/-- Claim C2 (counterexample): for `previous_mask = 0x0000` and
`new_mask = 0x0001` the diff emits exactly one event for BUTTON_1A with
`pressed = false`, not `pressed = true`: under the active-low hardware
polarity that `check_press_button` applies, a set bit in the new raw
mask means the button is released. -/
theorem button_diff_counterexample :
    button_handler 0 1 = [⟨BUTTON_1A, false⟩] ∧
    ([⟨BUTTON_1A, false⟩] : List ButtonEvent) ≠ [⟨BUTTON_1A, true⟩] := by
  constructor
  · rfl
  · decide

/-- Claim C2 (amended): for every pair of raw masks the diff emits, for
each of the 14 buttons whose bit differs, exactly one event, whose
`pressed` flag is true iff the button's bit is cleared in the new raw
mask (pressed means cleared under the active-low convention); in
particular `previous_mask = 0x0000`, `new_mask = 0x0001` yields exactly
the one event for BUTTON_1A with `pressed = false`. -/
theorem button_diff_amended (last curr b : ℕ) (hb : b ∈ arcadeButtons) :
    (List.countP (fun e => e.button == b) (button_handler last curr)
        = if (last ^^^ curr) &&& b ≠ 0 then 1 else 0) ∧
    (∀ e ∈ button_handler last curr,
      (e.pressed = true ↔ curr &&& e.button = 0) ∧ e.button ∈ arcadeButtons) ∧
    button_handler 0 1 = [⟨BUTTON_1A, false⟩] :=
  ⟨button_events_per_button last curr b hb,
    button_events_pressed last curr, rfl⟩

/-- Witness for the amended C2 at the claim's concrete masks. -/
theorem button_diff_amended_witness :
    BUTTON_1A ∈ arcadeButtons ∧
    List.countP (fun e => e.button == BUTTON_1A) (button_handler 0 1)
      = if (0 ^^^ 1) &&& BUTTON_1A ≠ 0 then 1 else 0 :=
  ⟨by simp [arcadeButtons],
    (button_diff_amended 0 1 BUTTON_1A (by simp [arcadeButtons])).1⟩

end GGA
